import Mathlib

/-!
Verification development for the calico interactive test runner
(src/calico/base.py, src/calico/parse.py).

The Python code is shallowly embedded: pure data manipulation is translated
directly; the interaction with the child process through pexpect is abstracted
by an oracle (`Proc`) that fixes, for each `process.expect` call, whether the
call matches, raises `pexpect.EOF`, or raises `pexpect.TIMEOUT`, together with
the final exit/signal status.  Variable substitution (`action.data % defs`,
Python percent-formatting against a mapping) is abstracted by a function
`dApply : String → String` applied to non-EOF data.  `GLOBAL_TIMEOUT` and
`SUPPORTS_JAIL` live in the package `__init__` (not part of the sources here)
and are threaded as parameters.
-/

set_option autoImplicit false

namespace Calico

/-- `ActionType` (base.py): EXPECT = ("e", "expect"), SEND = ("s", "send"). -/
inductive ActionType where
  | expect
  | send
deriving DecidableEq, Repr

/-- The long serialization name of an action type (`type_.value[1]`). -/
def ActionType.longName : ActionType → String
  | .expect => "expect"
  | .send => "send"

/-- `Action.data` after `Action.__init__`: either the `pexpect.EOF` sentinel
object (when the constructor argument was the string `"_EOF_"`) or a string. -/
inductive AData where
  | eof
  | str (s : String)
deriving DecidableEq, Repr

/-- Models the Python expression `data != "_EOF_"` on an `Action.data` value:
the `pexpect.EOF` object is never equal to the *string* `"_EOF_"`, so the
comparison is true for it. -/
def AData.neEofLiteral : AData → Bool
  | .eof => true
  | .str s => s ≠ "_EOF_"

/-- An action in a test script (`Action` in base.py).  `timeout = -1` models
the default (absent) timeout. -/
structure Action where
  type_ : ActionType
  data : AData
  timeout : Int
deriving DecidableEq, Repr

/-- `Action.__init__(type_, data, timeout=-1)`: the data string `"_EOF_"` is
replaced by the `pexpect.EOF` sentinel. -/
def Action.mk' (t : ActionType) (d : String) (timeout : Int) : Action :=
  ⟨t, if d = "_EOF_" then AData.eof else AData.str d, timeout⟩

/-- Result of one `process.expect` call: a match, a `pexpect.EOF` exception,
or a `pexpect.TIMEOUT` exception. -/
inductive ExpectOutcome where
  | matched
  | eofRaised
  | timeoutRaised
deriving DecidableEq, Repr

/-- Oracle for the child process behavior during one `run_script` invocation:
`outcome i pat tmo` is what the `i`-th `process.expect` call (0-based, with
pattern `pat` and effective timeout `tmo`) does, and `exitstatus` /
`signalstatus` are the statuses read back after the process is closed. -/
structure Proc where
  outcome : Nat → AData → Int → ExpectOutcome
  exitstatus : Option Int
  signalstatus : Option Int

/-- base.py line 104-106: the implicit end-of-output append.
`last = script[-1] if len(script) > 0 else None;`
`if (last is None) or ((last.type_ != ActionType.EXPECT) and (last.data != "_EOF_")):`
`    script.append(Action(ActionType.EXPECT, "_EOF_"))`
Note that after `Action.__init__` no action's data is the *string* `"_EOF_"`
(it was replaced by the `pexpect.EOF` object), which `AData.neEofLiteral`
reflects. -/
def ensureEof (script : List Action) : List Action :=
  match script.getLast? with
  | none => script ++ [Action.mk' ActionType.expect "_EOF_" (-1)]
  | some last =>
    if (¬ last.type_ = ActionType.expect) ∧ last.data.neEofLiteral = true then
      script ++ [Action.mk' ActionType.expect "_EOF_" (-1)]
    else
      script

/-- Substitution step of base.py line 109-110: `action.data % defs` is applied
unless the data is the `pexpect.EOF` sentinel; percent-formatting against the
mapping is abstracted by `dApply`. -/
def substData (dApply : String → String) : AData → AData
  | .eof => .eof
  | .str s => .str (dApply s)

/-- Effective timeout of a `process.expect` call.  base.py line 118 passes
`timeout=action.timeout` to pexpect, which treats `-1` as "use the timeout
given to `spawn`", i.e. the resolved global timeout; the debug log at line 116
computes the same value explicitly. -/
def effectiveTimeout (actionTimeout gT : Int) : Int :=
  if actionTimeout = -1 then gT else actionTimeout

/-- Observable outcome of the `for action in script` loop of `run_script`:
errors accumulated, `(pattern, effective timeout)` trace of executed expect
calls, the visited actions (after their in-place data substitution), the
actions left unvisited by a `break`, and whether a `break` happened. -/
structure LoopOut where
  errors : List String
  expects : List (AData × Int)
  processed : List Action
  remaining : List Action
  broke : Bool
deriving Repr

/-- base.py line 108-146, the `for action in script` loop.  `i` counts the
`process.expect` calls made so far.  For an EXPECT action the substituted
pattern and the raw `action.timeout` are handed to `process.expect`; a
`pexpect.EOF` / `pexpect.TIMEOUT` exception appends its error string and
breaks the loop (the session is force-closed there, see `run_script`).  For a
SEND action the substituted line is sent. -/
def runLoop (dApply : String → String) (gT : Int) (proc : Proc) :
    List Action → Nat → LoopOut
  | [], _ => ⟨[], [], [], [], false⟩
  | a :: rest, i =>
    let a2 : Action := ⟨a.type_, substData dApply a.data, a.timeout⟩
    match a.type_ with
    | ActionType.send =>
      let out := runLoop dApply gT proc rest i
      ⟨out.errors, out.expects, a2 :: out.processed, out.remaining, out.broke⟩
    | ActionType.expect =>
      let eff := effectiveTimeout a.timeout gT
      match proc.outcome i a2.data eff with
      | ExpectOutcome.matched =>
        let out := runLoop dApply gT proc rest (i + 1)
        ⟨out.errors, (a2.data, eff) :: out.expects, a2 :: out.processed,
          out.remaining, out.broke⟩
      | ExpectOutcome.eofRaised =>
        ⟨["Expected output not received."], [(a2.data, eff)], [a2], rest, true⟩
      | ExpectOutcome.timeoutRaised =>
        ⟨["Timeout exceeded."], [(a2.data, eff)], [a2], rest, true⟩

/-- Result of `run_script`: the returned triple (exit status, signal status,
errors) together with the observable effects — the command that was spawned,
the expect-call trace, the script list as mutated in place (visited actions
substituted, plus the implicit appended EOF expect), how many actions were
executed, and whether the session was closed with `force=True`. -/
structure ScriptResult where
  exitstatus : Option Int
  signalstatus : Option Int
  errors : List String
  command : String
  expects : List (AData × Int)
  finalScript : List Action
  executed : Nat
  closedForce : Bool
deriving Repr

/-- `run_script(command, script, defs=None, g_timeout=None)` of base.py.
`g_timeout` defaults to `GLOBAL_TIMEOUT` (from the package `__init__`, here
the parameter `globalTimeout`).  The process is spawned on `command`, the
implicit trailing-EOF append of line 104-106 is applied, and the loop runs;
every exit path closes the session with `force=True` (lines 130, 140, 148). -/
def run_script (command : String) (script : List Action) (dApply : String → String)
    (g_timeout : Option Int) (globalTimeout : Int) (proc : Proc) : ScriptResult :=
  let gT := g_timeout.getD globalTimeout
  let script2 := ensureEof script
  let out := runLoop dApply gT proc script2 0
  ⟨proc.exitstatus, proc.signalstatus, out.errors, command, out.expects,
    out.processed ++ out.remaining, out.processed.length, true⟩

/-- A test case (`TestCase` in base.py).  `timeout = -1` and `exits = 0` are
the constructor defaults; `points` is optional and numeric (modelled as `Rat`,
which embeds the integers exactly and abstracts Python floats). -/
structure TestCase where
  name : String
  command : String
  script : List Action
  timeout : Int
  exits : Int
  points : Option Rat
  blocker : Bool
  visible : Bool
deriving DecidableEq, Repr

/-- `TestCase.__init__`: the script starts empty. -/
def TestCase.init (name command : String) (timeout exits : Int)
    (points : Option Rat) (blocker visible : Bool) : TestCase :=
  ⟨name, command, [], timeout, exits, points, blocker, visible⟩

/-- `TestCase.add_action`: append to the script. -/
def TestCase.add_action (t : TestCase) (a : Action) : TestCase :=
  ⟨t.name, t.command, t.script ++ [a], t.timeout, t.exits, t.points, t.blocker,
    t.visible⟩

/-- A per-case report: the `{"errors": [...]}` mapping of `TestCase.run`, with
the `"points"` key that `Calico.run` may add later. -/
structure CaseReport where
  errors : List String
  points : Option Rat
deriving DecidableEq, Repr

/-- Everything observable about one `TestCase.run` call: the returned report,
the `run_script` result it consumed, and the case afterwards (the script list
is mutated in place by `run_script`). -/
structure CaseRunOut where
  report : CaseReport
  sres : ScriptResult
  post : TestCase
deriving Repr

/-- `TestCase.run(defs, jailed, g_timeout)` of base.py line 226-258.  The
jail-prefixed command string is built (line 242-243) but the call at line
246-247 passes `self.command` to `run_script`; the case's own `timeout` field
is not passed at all.  After the script runs, `exit_status != self.exits`
appends "Incorrect exit status." (`None` differs from every expected int). -/
def TestCase.run (t : TestCase) (dApply : String → String) (jailed : Bool)
    (g_timeout : Option Int) (globalTimeout : Int) (cwd : String)
    (proc : Proc) : CaseRunOut :=
  let jailWrap := if jailed then "fakechroot chroot " ++ cwd ++ " " else ""
  let _commandBuilt := jailWrap ++ t.command
  let r := run_script t.command t.script dApply g_timeout globalTimeout proc
  let errors2 :=
    r.errors ++ (if r.exitstatus ≠ some t.exits then ["Incorrect exit status."] else [])
  ⟨⟨errors2, none⟩, r,
    ⟨t.name, t.command, r.finalScript, t.timeout, t.exits, t.points, t.blocker,
      t.visible⟩⟩

/-- `OrderedDict.__setitem__`: replace in place when the key exists, append
otherwise. -/
def odSet (m : List (String × TestCase)) (k : String) (v : TestCase) :
    List (String × TestCase) :=
  if m.any (fun p => p.1 == k) then
    m.map (fun p => if p.1 == k then (k, v) else p)
  else
    m ++ [(k, v)]

/-- `OrderedDict.get`. -/
def lookupCase (m : List (String × TestCase)) (k : String) : Option TestCase :=
  (m.find? (fun p => p.1 == k)).map (fun p => p.2)

/-- The suite (`class Calico(OrderedDict)` in base.py): an ordered mapping
from case name to case, plus the running `points` total. -/
structure Suite where
  cases : List (String × TestCase)
  points : Rat
deriving DecidableEq, Repr

/-- `Calico.__init__`: empty mapping, zero points. -/
def Suite.init : Suite := ⟨[], 0⟩

/-- `Calico.add_case`: `self[case.name] = case` then
`self.points += case.points if case.points is not None else 0`. -/
def Suite.add_case (s : Suite) (c : TestCase) : Suite :=
  ⟨odSet s.cases c.name c, s.points + c.points.getD 0⟩

/-- Python errors that the embedded code can raise. -/
inductive PyErr where
  | assertionError (msg : String)
  | typeError (msg : String)
  | attributeError (msg : String)
deriving DecidableEq, Repr

/-- Python `str.startswith` (and the `n[0] != "_"` test, for nonempty
names), implemented on the character list so that concrete instances
evaluate by kernel reduction. -/
def strStarts (s p : String) : Bool :=
  List.isPrefixOf p.toList s.toList

/-- The names run by default: `[n for n in self.keys() if n[0] != "_"]`
(base.py line 307). -/
def Suite.defaultNames (s : Suite) : List String :=
  (s.cases.map (fun p => p.1)).filter (fun n => ! strStarts n "_")

/-- The suite-level report of `Calico.run`: the per-case entries in execution
order plus the final `report["points"] = earned_points`. -/
structure SuiteReport where
  entries : List (String × CaseReport)
  points : Rat
deriving DecidableEq, Repr

/-- The `for test_name in test_names` loop of `Calico.run` (base.py line
308-333).  `behave` gives the process behavior of each named case's run
(`defs=self.get("_define_vars")` is abstracted into `dApply`).  A missing name
makes Python call `.run` on `None` (`AttributeError`).  `jailed` is
`SUPPORTS_JAIL and test_name.startswith("case_")` with `SUPPORTS_JAIL` a
package-level flag, here `supportsJail`.  When the case declares points the
entry's `"points"` is the declared value if it passed, else 0, and it is added
to the earned total.  A failed blocker breaks the loop. -/
def Suite.runLoop (s : Suite) (behave : String → Proc) (dApply : String → String)
    (supportsJail : Bool) (g_timeout : Option Int) (globalTimeout : Int)
    (cwd : String) : List String → Except PyErr (List (String × CaseReport) × Rat)
  | [] => Except.ok ([], 0)
  | n :: rest =>
    match lookupCase s.cases n with
    | none => Except.error (PyErr.attributeError (n ++ ": NoneType has no attribute run"))
    | some t =>
      let jailed := supportsJail && strStarts n "case_"
      let out := TestCase.run t dApply jailed g_timeout globalTimeout cwd (behave n)
      let passed := out.report.errors.isEmpty
      let scored : Option Rat :=
        match t.points with
        | none => none
        | some p => some (if passed then p else 0)
      let rep : CaseReport := ⟨out.report.errors, scored⟩
      let earned : Rat := scored.getD 0
      if t.blocker && ! passed then
        Except.ok ([(n, rep)], earned)
      else
        match Suite.runLoop s behave dApply supportsJail g_timeout globalTimeout cwd rest with
        | Except.error e => Except.error e
        | Except.ok (es, pts) => Except.ok ((n, rep) :: es, earned + pts)

/-- `Calico.run(tests, quiet, g_timeout)` of base.py line 293-336: resolve the
selected test names (default: all names not starting with `_`), run them in
order with the blocker short-circuit, and finish with
`report["points"] = earned_points`. -/
def Suite.run (s : Suite) (behave : String → Proc) (dApply : String → String)
    (supportsJail : Bool) (tests : Option (List String)) (g_timeout : Option Int)
    (globalTimeout : Int) (cwd : String) : Except PyErr SuiteReport :=
  let names := tests.getD (Suite.defaultNames s)
  match Suite.runLoop s behave dApply supportsJail g_timeout globalTimeout cwd names with
  | Except.error e => Except.error e
  | Except.ok (es, pts) => Except.ok ⟨es, pts⟩

/-- A scalar as produced by the YAML loader (`ruamel.yaml.round_trip_load`,
an external library): string, int, float (modelled as `Rat`) or bool. -/
inductive YVal where
  | yStr (s : String)
  | yInt (n : Int)
  | yRat (q : Rat)
  | yBool (b : Bool)
deriving DecidableEq, Repr

/-- One script step as loaded: the single `{key: value}` pair plus the value
of a trailing `# timeout: N` comment as extracted by `get_comment_value`
(parse.py line 32-49), already stripped to the text after `timeout:`. -/
structure StepDoc where
  key : String
  value : YVal
  timeoutComment : Option String
deriving DecidableEq, Repr

/-- One case of the loaded spec document: the fields `parse_spec` reads via
`test.get(...)` (`none` covers both an absent key and a null value) and the
`# timeout:` comment attached to the `run` entry. -/
structure CaseDoc where
  name : String
  run : Option YVal
  ret : Option YVal
  runTimeoutComment : Option String
  points : Option YVal
  blocker : Option YVal
  visible : Option YVal
  script : Option (List StepDoc)
deriving DecidableEq, Repr

/-- Python `str.isdigit` for the timeout comment text. -/
def pyIsDigit (s : String) : Bool :=
  s.length > 0 && s.toList.all Char.isDigit

/-- Python `int(...)` on a digits-only string. -/
def pyToInt (s : String) : Int :=
  Int.ofNat (s.toNat?.getD 0)

/-- `action_types = {i: m for m in ActionType for i in m.value}` (parse.py
line 71): both the short and the long name map to the member. -/
def actionTypeOf : String → Option ActionType
  | "e" => some ActionType.expect
  | "expect" => some ActionType.expect
  | "s" => some ActionType.send
  | "send" => some ActionType.send
  | _ => none

/-- The keyword arguments `parse_spec` accumulates for the `TestCase` call
(parse.py line 81-112), by the keys it actually uses: `returns`, `timeout`,
`points`, `blocker`, `visible`. -/
structure InitKwargs where
  returns : Option Int
  timeout : Option Int
  points : Option Rat
  blocker : Option Bool
  visible : Option Bool
deriving DecidableEq, Repr

/-- `TestCase(test_name, command=run, **kwargs)` (parse.py line 114) with
Python keyword binding against the `TestCase.__init__` signature
`(name, command, timeout=-1, exits=0, points=None, blocker=False,
visible=True)`.  The key `"returns"` (set at parse.py line 86) matches no
parameter, so Python raises `TypeError`; no kwarg ever binds `exits`, which
therefore always keeps its default 0. -/
def callTestCase (name command : String) (kw : InitKwargs) : Except PyErr TestCase :=
  match kw.returns with
  | some _ =>
    Except.error (PyErr.typeError
      (name ++ ": init got an unexpected keyword argument returns"))
  | none =>
    Except.ok ⟨name, command, [], kw.timeout.getD (-1), 0, kw.points,
      kw.blocker.getD false, kw.visible.getD true⟩

/-- One script step (parse.py line 122-135): the action type must be known,
the data must be a string, and a `# timeout:` comment must be digits. -/
def parseStep (testName : String) (step : StepDoc) : Except PyErr Action :=
  match actionTypeOf step.key with
  | none => Except.error (PyErr.assertionError (testName ++ ": unknown action type"))
  | some ty =>
    match step.value with
    | YVal.yStr data =>
      match step.timeoutComment with
      | none => Except.ok (Action.mk' ty data (-1))
      | some ts =>
        if pyIsDigit ts then
          Except.ok (Action.mk' ty data (pyToInt ts))
        else
          Except.error
            (PyErr.assertionError (testName ++ ": timeout value must be an integer"))
    | _ => Except.error (PyErr.assertionError (testName ++ ": action data must be a string"))

/-- One case of `parse_spec` (parse.py line 76-137).  Python subtlety kept:
`isinstance(x, int)` and `isinstance(x, (int, float))` are true for bools
(bool is an int subclass), while `isinstance(x, bool)` is false for ints.
A script-less case gets a single implicit EOF expect carrying the *case*
timeout (line 118-120). -/
def parseCase (c : CaseDoc) : Except PyErr TestCase := do
  match c.run with
  | none => Except.error (PyErr.assertionError (c.name ++ ": no run command"))
  | some (YVal.yStr runCmd) => do
    let returnsKw : Option Int ←
      match c.ret with
      | none => pure none
      | some (YVal.yInt n) => pure (some n)
      | some (YVal.yBool b) => pure (some (if b then 1 else 0))
      | some _ =>
        Except.error (PyErr.assertionError (c.name ++ ": return value must be an integer"))
    let timeoutKw : Option Int ←
      match c.runTimeoutComment with
      | none => pure none
      | some ts =>
        if pyIsDigit ts then pure (some (pyToInt ts))
        else (Except.error
          (PyErr.assertionError (c.name ++ ": timeout value must be an integer")))
    let pointsKw : Option Rat ←
      match c.points with
      | none => pure none
      | some (YVal.yInt n) => pure (some (n : Rat))
      | some (YVal.yRat q) => pure (some q)
      | some (YVal.yBool b) => pure (some (if b then 1 else 0))
      | some _ =>
        Except.error (PyErr.assertionError (c.name ++ ": points value must be numeric"))
    let blockerKw : Option Bool ←
      match c.blocker with
      | none => pure none
      | some (YVal.yBool b) => pure (some b)
      | some _ =>
        Except.error (PyErr.assertionError (c.name ++ ": blocker value must be true or false"))
    let visibleKw : Option Bool ←
      match c.visible with
      | none => pure none
      | some (YVal.yBool b) => pure (some b)
      | some _ =>
        Except.error
          (PyErr.assertionError (c.name ++ ": visibility value must be true or false"))
    let case0 ← callTestCase c.name runCmd
      ⟨returnsKw, timeoutKw, pointsKw, blockerKw, visibleKw⟩
    match c.script with
    | none =>
      pure (case0.add_action (Action.mk' ActionType.expect "_EOF_" case0.timeout))
    | some steps =>
      steps.foldlM (fun acc st => do
        let a ← parseStep c.name st
        pure (acc.add_action a)) case0
  | some _ =>
    Except.error (PyErr.assertionError (c.name ++ ": run command must be a string"))

/-- `parse_spec` (parse.py line 52-139) over the loaded document: each case is
parsed in order and added to a fresh `Calico` suite with `add_case`.  The
YAML-text level checks (malformed YAML, empty document, top level not a
sequence) precede this model. -/
def parse_spec (doc : List CaseDoc) : Except PyErr Suite :=
  doc.foldlM (fun s c => do
    let t ← parseCase c
    pure (s.add_case t)) Suite.init

/-- A rational as the YAML loader reads the decimal text Python prints for
the points value: an int when integral, a float otherwise. -/
def ratRender (q : Rat) : YVal :=
  if q.den = 1 then YVal.yInt q.num else YVal.yRat q

/-- `Action.__str__` (base.py line 78-84) composed with the YAML loader: the
emitted line is `- <long name>: <dumps(data)> [# timeout: N]` (the data is
left as the bare word `_EOF_` for the sentinel), which loads back as the long
type name keyed to the data string, with the timeout comment text `N` exactly
when the timeout is not -1. -/
def Action.renderStep (a : Action) : StepDoc :=
  ⟨a.type_.longName,
    YVal.yStr (match a.data with | AData.eof => "_EOF_" | AData.str s => s),
    if a.timeout = -1 then none else some (toString a.timeout)⟩

/-- `TestCase.__str__` (base.py line 210-224) composed with the YAML loader.
The template emits exactly the keys `run`, `script`, `return` and `points`:
no `blocker`, no `visible`, and no `# timeout:` comment on `run`.  `return`
is the int `self.exits`; `points` is the number, or — since the template
interpolates `{self.points}` — the plain scalar `None`, which YAML loads as
the *string* "None".  An empty script leaves the `script` key without a
value, which loads as null. -/
def TestCase.renderDoc (t : TestCase) : CaseDoc :=
  ⟨t.name,
    some (YVal.yStr t.command),
    some (YVal.yInt t.exits),
    none,
    some (match t.points with | none => YVal.yStr "None" | some q => ratRender q),
    none,
    none,
    if t.script.isEmpty then none else some (t.script.map Action.renderStep)⟩

/-- `Calico.__str__` (base.py line 289-291) composed with the YAML loader:
one rendered case per entry, in order. -/
def Suite.renderDoc (s : Suite) : List CaseDoc :=
  s.cases.map (fun p => TestCase.renderDoc p.2)

/-- Every expect of a list matches, when the expect calls are numbered from
`i`: the loop condition under which `run_script` reaches the actions after the
list. -/
def allMatchedFrom (dApply : String → String) (gT : Int) (proc : Proc) :
    List Action → Nat → Bool
  | [], _ => true
  | a :: rest, i =>
    match a.type_ with
    | ActionType.send => allMatchedFrom dApply gT proc rest i
    | ActionType.expect =>
      match proc.outcome i (substData dApply a.data) (effectiveTimeout a.timeout gT) with
      | ExpectOutcome.matched => allMatchedFrom dApply gT proc rest (i + 1)
      | _ => false

/-- Number of expect actions in a list (the number of `process.expect` calls
the list makes when it all matches). -/
def expectCount : List Action → Nat
  | [] => 0
  | a :: rest => (if a.type_ = ActionType.expect then 1 else 0) + expectCount rest

/-- The prefix of a name list up to and including the first name satisfying
`p` (the whole list when none does): the shape of a loop with a trailing
`break` condition. -/
def takeThrough (p : String → Bool) : List String → List String
  | [] => []
  | n :: rest => if p n then [n] else n :: takeThrough p rest

/-- Whether running the named case of the suite fails with `blocker` set —
the condition under which `Calico.run` breaks out of its loop. -/
def blockerStops (s : Suite) (behave : String → Proc) (dApply : String → String)
    (supportsJail : Bool) (g_timeout : Option Int) (globalTimeout : Int)
    (cwd : String) (n : String) : Bool :=
  match lookupCase s.cases n with
  | none => false
  | some t =>
    t.blocker && ! (TestCase.run t dApply (supportsJail && strStarts n "case_")
      g_timeout globalTimeout cwd (behave n)).report.errors.isEmpty

/-- A process whose every expect call matches, exiting with status 0. -/
def procPass : Proc := ⟨fun _ _ _ => ExpectOutcome.matched, some 0, none⟩

/-- A process whose every expect call times out, killed by a signal. -/
def procTimeout : Proc := ⟨fun _ _ _ => ExpectOutcome.timeoutRaised, none, some 9⟩

/-- C2 fixture: a case with its own timeout 5 whose single expect action has
no timeout of its own. -/
def tC2 : TestCase :=
  ⟨"c2", "prog", [Action.mk' ActionType.expect "x" (-1)], 5, 0, none, false, true⟩

/-- C2 fixture: the same case with its case-level timeout changed to 7. -/
def tC2x : TestCase :=
  ⟨"c2", "prog", [Action.mk' ActionType.expect "x" (-1)], 7, 0, none, false, true⟩

/-- C3 fixture: a failing non-blocker case. -/
def tNb : TestCase :=
  ⟨"nb", "prog", [Action.mk' ActionType.expect "x" (-1)], -1, 0, none, false, true⟩

/-- C3 fixture: a failing blocker case. -/
def tBl : TestCase :=
  ⟨"bl", "prog", [Action.mk' ActionType.expect "x" (-1)], -1, 0, none, true, true⟩

/-- C3 fixture: a passing case that should never be reached. -/
def tAfter : TestCase :=
  ⟨"after", "prog", [Action.mk' ActionType.expect "_EOF_" (-1)], -1, 0, none, false, true⟩

/-- C3 fixture: suite [nb (fails, not blocker), bl (fails, blocker), after]. -/
def sC3 : Suite :=
  ((Suite.init.add_case tNb).add_case tBl).add_case tAfter

/-- C3 fixture: nb and bl fail (timeout), after would pass. -/
def behaveC3 : String → Proc := fun n =>
  if n = "after" then procPass else procTimeout

/-- C4 fixture: a script whose second expect fails; it ends in a send, so the
implicit EOF expect is appended after it. -/
def scriptC4 : List Action :=
  [Action.mk' ActionType.expect "a" (-1), Action.mk' ActionType.expect "b" 5,
   Action.mk' ActionType.send "z" (-1)]

/-- C4 fixture: first expect matches, second times out. -/
def procC4t : Proc :=
  ⟨fun i _ _ => if i = 0 then ExpectOutcome.matched else ExpectOutcome.timeoutRaised,
   none, some 9⟩

/-- C4 fixture: first expect matches, second hits end of stream. -/
def procC4e : Proc :=
  ⟨fun i _ _ => if i = 0 then ExpectOutcome.matched else ExpectOutcome.eofRaised,
   some 1, none⟩

/-- C5 fixture: a case expecting exit status 0. -/
def tC5 : TestCase :=
  ⟨"c5", "prog", [Action.mk' ActionType.expect "_EOF_" (-1)], -1, 0, none, false, true⟩

/-- C6 fixture: an ordinary passing case worth 3 points. -/
def tC6a : TestCase :=
  ⟨"a", "prog", [Action.mk' ActionType.expect "_EOF_" (-1)], -1, 0, some 3, false, true⟩

/-- C6 fixture: a metadata-named case (leading underscore) worth 2 points. -/
def tC6m : TestCase :=
  ⟨"_m", "prog", [Action.mk' ActionType.expect "_EOF_" (-1)], -1, 0, some 2, false, true⟩

/-- C6 fixture: the suite holding both. -/
def sC6 : Suite := (Suite.init.add_case tC6a).add_case tC6m

/-- C6 fixture: two ordinary passing cases for the amended statement. -/
def csC6 : List TestCase :=
  [⟨"w1", "prog", [Action.mk' ActionType.expect "_EOF_" (-1)], -1, 0, some 3, false, true⟩,
   ⟨"w2", "prog", [Action.mk' ActionType.expect "_EOF_" (-1)], -1, 0, none, false, true⟩]

/-- C7 fixture: a one-case suite with points and blocker set. -/
def sC7 : Suite :=
  Suite.init.add_case
    ⟨"c7", "prog", [Action.mk' ActionType.expect "x" 3], -1, 0, some 1, true, true⟩

/-- C8 fixture: a case to run sandboxed. -/
def tC8 : TestCase :=
  ⟨"case_8", "prog", [Action.mk' ActionType.expect "_EOF_" (-1)], -1, 0, none, false, true⟩

/-- C9 fixture: a case document carrying `return: 2`. -/
def docC9 : CaseDoc :=
  ⟨"c9", some (YVal.yStr "prog"), some (YVal.yInt 2), none, none, none, none, none⟩

/-- C9 fixture: the same case document without a `return` field. -/
def docC9b : CaseDoc :=
  ⟨"c9b", some (YVal.yStr "prog"), none, none, none, none, none, none⟩

/-- C10 fixture: a case whose script is empty before the run. -/
def tC10 : TestCase := ⟨"c10", "prog", [], -1, 0, none, false, true⟩

/-- C10 fixture: a case whose script already ends in an expect action. -/
def tC10b : TestCase :=
  ⟨"c10b", "prog",
   [Action.mk' ActionType.send "z" (-1), Action.mk' ActionType.expect "_EOF_" (-1)],
   -1, 0, none, false, true⟩

theorem runLoop_errors_mem (d : String → String) (g : Int) (proc : Proc) :
    ∀ (xs : List Action) (i : Nat) (e : String),
      e ∈ (runLoop d g proc xs i).errors →
      e = "Expected output not received." ∨ e = "Timeout exceeded."
  | [], i, e => by
    simp [runLoop]
  | a :: rest, i, e => by
    intro h
    cases hty : a.type_ with
    | send =>
      simp only [runLoop, hty] at h
      exact runLoop_errors_mem d g proc rest i e h
    | expect =>
      simp only [runLoop, hty] at h
      cases hout : proc.outcome i (substData d a.data) (effectiveTimeout a.timeout g) with
      | matched =>
        rw [hout] at h
        exact runLoop_errors_mem d g proc rest (i + 1) e h
      | eofRaised =>
        rw [hout] at h
        simp at h
        exact Or.inl h
      | timeoutRaised =>
        rw [hout] at h
        simp at h
        exact Or.inr h

theorem runLoop_of_allMatched (d : String → String) (g : Int) (proc : Proc) :
    ∀ (xs : List Action) (i : Nat), allMatchedFrom d g proc xs i = true →
      (runLoop d g proc xs i).errors = [] ∧
      (runLoop d g proc xs i).remaining = [] ∧
      (runLoop d g proc xs i).broke = false ∧
      (runLoop d g proc xs i).processed.length = xs.length
  | [], i, _ => by
    simp [runLoop]
  | a :: rest, i, h => by
    cases hty : a.type_ with
    | send =>
      simp only [allMatchedFrom, hty] at h
      have ih := runLoop_of_allMatched d g proc rest i h
      simp only [runLoop, hty]
      simp [ih.1, ih.2.1, ih.2.2.1, ih.2.2.2]
    | expect =>
      simp only [allMatchedFrom, hty] at h
      cases hout : proc.outcome i (substData d a.data) (effectiveTimeout a.timeout g) with
      | matched =>
        rw [hout] at h
        have ih := runLoop_of_allMatched d g proc rest (i + 1) h
        simp only [runLoop, hty]
        rw [hout]
        simp [ih.1, ih.2.1, ih.2.2.1, ih.2.2.2]
      | eofRaised =>
        rw [hout] at h
        simp at h
      | timeoutRaised =>
        rw [hout] at h
        simp at h

theorem runLoop_append_of_allMatched (d : String → String) (g : Int) (proc : Proc) :
    ∀ (pre rest : List Action) (i : Nat), allMatchedFrom d g proc pre i = true →
      runLoop d g proc (pre ++ rest) i =
        ⟨(runLoop d g proc rest (i + expectCount pre)).errors,
         (runLoop d g proc pre i).expects
           ++ (runLoop d g proc rest (i + expectCount pre)).expects,
         (runLoop d g proc pre i).processed
           ++ (runLoop d g proc rest (i + expectCount pre)).processed,
         (runLoop d g proc rest (i + expectCount pre)).remaining,
         (runLoop d g proc rest (i + expectCount pre)).broke⟩
  | [], rest, i, _ => by
    simp [runLoop, expectCount]
  | a :: pre, rest, i, h => by
    obtain ⟨ty, dat, tmo⟩ := a
    cases ty with
    | send =>
      simp only [allMatchedFrom] at h
      have ih := runLoop_append_of_allMatched d g proc pre rest i h
      simp only [List.cons_append, runLoop]
      simp [ih, expectCount]
    | expect =>
      simp only [allMatchedFrom] at h
      cases hout : proc.outcome i (substData d dat) (effectiveTimeout tmo g) with
      | matched =>
        rw [hout] at h
        have ih := runLoop_append_of_allMatched d g proc pre rest (i + 1) h
        have harith : i + (1 + expectCount pre) = i + 1 + expectCount pre :=
          (Nat.add_assoc i 1 (expectCount pre)).symm
        simp only [List.cons_append, runLoop]
        rw [hout]
        simp [ih, expectCount, harith]
      | eofRaised =>
        rw [hout] at h
        simp at h
      | timeoutRaised =>
        rw [hout] at h
        simp at h

theorem runLoop_expects_mem (d : String → String) (g : Int) (proc : Proc) :
    ∀ (xs : List Action) (i : Nat) (p : AData × Int),
      p ∈ (runLoop d g proc xs i).expects →
      ∃ a, a ∈ xs ∧ a.type_ = ActionType.expect ∧
        p = (substData d a.data, effectiveTimeout a.timeout g)
  | [], i, p => by
    simp [runLoop]
  | a :: rest, i, p => by
    intro h
    cases hty : a.type_ with
    | send =>
      simp only [runLoop, hty] at h
      obtain ⟨b, hb, hbty, hbp⟩ := runLoop_expects_mem d g proc rest i p h
      exact ⟨b, List.mem_cons_of_mem a hb, hbty, hbp⟩
    | expect =>
      simp only [runLoop, hty] at h
      cases hout : proc.outcome i (substData d a.data) (effectiveTimeout a.timeout g) with
      | matched =>
        rw [hout] at h
        simp only [List.mem_cons] at h
        cases h with
        | inl h => exact ⟨a, List.mem_cons_self a rest, hty, h⟩
        | inr h =>
          obtain ⟨b, hb, hbty, hbp⟩ := runLoop_expects_mem d g proc rest (i + 1) p h
          exact ⟨b, List.mem_cons_of_mem a hb, hbty, hbp⟩
      | eofRaised =>
        rw [hout] at h
        simp at h
        exact ⟨a, List.mem_cons_self a rest, hty, h⟩
      | timeoutRaised =>
        rw [hout] at h
        simp at h
        exact ⟨a, List.mem_cons_self a rest, hty, h⟩

theorem runLoop_final_of_id (d : String → String) (g : Int) (proc : Proc)
    (hid : ∀ s, d s = s) :
    ∀ (xs : List Action) (i : Nat),
      (runLoop d g proc xs i).processed ++ (runLoop d g proc xs i).remaining = xs
  | [], i => by
    simp [runLoop]
  | a :: rest, i => by
    obtain ⟨ty, dat, tmo⟩ := a
    have ha2 : substData d dat = dat := by
      cases dat with
      | eof => rfl
      | str s => simp [substData, hid]
    cases ty with
    | send =>
      have ih := runLoop_final_of_id d g proc hid rest i
      simp [runLoop, ha2, ih]
    | expect =>
      cases hout : proc.outcome i (substData d dat) (effectiveTimeout tmo g) with
      | matched =>
        rw [ha2] at hout
        have ih := runLoop_final_of_id d g proc hid rest (i + 1)
        simp [runLoop, hout, ha2, ih]
      | eofRaised =>
        rw [ha2] at hout
        simp [runLoop, hout, ha2]
      | timeoutRaised =>
        rw [ha2] at hout
        simp [runLoop, hout, ha2]

theorem suiteRunLoop_entries (s : Suite) (behave : String → Proc)
    (dApply : String → String) (sj : Bool) (gT : Option Int) (gd : Int) (cwd : String) :
    ∀ names : List String, (∀ n ∈ names, (lookupCase s.cases n).isSome = true) →
      ∃ out, Suite.runLoop s behave dApply sj gT gd cwd names = Except.ok out ∧
        out.1.map (fun e => e.1)
          = takeThrough (blockerStops s behave dApply sj gT gd cwd) names
  | [], _ => ⟨([], 0), rfl, rfl⟩
  | n :: rest, h => by
    have hn := h n (List.mem_cons_self n rest)
    cases hl : lookupCase s.cases n with
    | none => rw [hl] at hn; simp at hn
    | some t =>
      have hrest : ∀ m ∈ rest, (lookupCase s.cases m).isSome = true :=
        fun m hm => h m (List.mem_cons_of_mem n hm)
      by_cases hb : (t.blocker && ! (TestCase.run t dApply (sj && strStarts n "case_")
          gT gd cwd (behave n)).report.errors.isEmpty) = true
      · simp only [Suite.runLoop, hl]
        rw [if_pos hb]
        exact ⟨_, rfl, by simp [takeThrough, blockerStops, hl, hb]⟩
      · obtain ⟨⟨es, pts⟩, hout, hmap⟩ :=
          suiteRunLoop_entries s behave dApply sj gT gd cwd rest hrest
        simp only [Suite.runLoop, hl]
        rw [if_neg hb, hout]
        refine ⟨_, rfl, ?_⟩
        simp only [List.map_cons]
        rw [hmap]
        simp [takeThrough, blockerStops, hl, hb]

theorem suiteRunLoop_all_pass (s : Suite) (behave : String → Proc)
    (dApply : String → String) (sj : Bool) (gT : Option Int) (gd : Int) (cwd : String) :
    ∀ names : List String,
      (∀ n ∈ names, ∃ t, lookupCase s.cases n = some t ∧
        (TestCase.run t dApply (sj && strStarts n "case_") gT gd cwd
          (behave n)).report.errors = []) →
      ∃ es, Suite.runLoop s behave dApply sj gT gd cwd names =
        Except.ok (es,
          (names.map (fun n => ((lookupCase s.cases n).bind TestCase.points).getD 0)).sum)
  | [], _ => ⟨[], by simp [Suite.runLoop]⟩
  | n :: rest, h => by
    obtain ⟨t, hl, hpass⟩ := h n (List.mem_cons_self n rest)
    have hrest := fun m hm => h m (List.mem_cons_of_mem n hm)
    obtain ⟨es, hes⟩ := suiteRunLoop_all_pass s behave dApply sj gT gd cwd rest hrest
    have hpassed :
        (TestCase.run t dApply (sj && strStarts n "case_") gT gd cwd
          (behave n)).report.errors.isEmpty = true := by
      rw [hpass]; rfl
    refine ⟨(n, ⟨(TestCase.run t dApply (sj && strStarts n "case_") gT gd cwd
        (behave n)).report.errors,
        match t.points with
        | none => none
        | some p => some p⟩) :: es, ?_⟩
    simp only [Suite.runLoop, hl, hpassed]
    rw [hes]
    simp only [List.map_cons, List.sum_cons, hl, Option.bind_eq_bind]
    cases hp : t.points with
    | none => simp [hp]
    | some p => simp [hp]

theorem foldl_add_case_points :
    ∀ (cs : List TestCase) (s0 : Suite),
      (List.foldl Suite.add_case s0 cs).points
        = s0.points + (cs.map (fun c => c.points.getD 0)).sum
  | [], s0 => by simp
  | c :: cs, s0 => by
    rw [List.foldl_cons, foldl_add_case_points cs (s0.add_case c)]
    simp [Suite.add_case, add_assoc]

theorem odSet_append_of_notMem (m : List (String × TestCase)) (k : String)
    (v : TestCase) (h : ∀ q ∈ m, q.1 ≠ k) : odSet m k v = m ++ [(k, v)] := by
  have : m.any (fun p => p.1 == k) = false := by
    simp only [List.any_eq_false]
    intro q hq
    simp [h q hq]
  simp [odSet, this]

theorem foldl_add_case_cases :
    ∀ (cs : List TestCase) (m : List (String × TestCase)) (p : Rat),
      (cs.map TestCase.name).Nodup → (∀ c ∈ cs, ∀ q ∈ m, q.1 ≠ c.name) →
      (List.foldl Suite.add_case ⟨m, p⟩ cs).cases = m ++ cs.map (fun c => (c.name, c))
  | [], m, p, _, _ => by simp
  | c :: cs, m, p, hnd, hdisj => by
    rw [List.foldl_cons]
    have hset : Suite.add_case ⟨m, p⟩ c =
        ⟨m ++ [(c.name, c)], p + c.points.getD 0⟩ := by
      simp only [Suite.add_case]
      rw [odSet_append_of_notMem m c.name c
        (fun q hq => hdisj c (List.mem_cons_self c cs) q hq)]
    rw [hset]
    have hnd' : (cs.map TestCase.name).Nodup := (List.nodup_cons.mp hnd).2
    have hdisj' : ∀ c' ∈ cs, ∀ q ∈ m ++ [(c.name, c)], q.1 ≠ c'.name := by
      intro c' hc' q hq
      rcases List.mem_append.mp hq with hq | hq
      · exact hdisj c' (List.mem_cons_of_mem c hc') q hq
      · simp at hq
        intro hcontra
        have hmem : c'.name ∈ List.map TestCase.name cs :=
          List.mem_map_of_mem TestCase.name hc'
        rw [hq] at hcontra
        simp at hcontra
        rw [← hcontra] at hmem
        exact (List.nodup_cons.mp hnd).1 hmem
    rw [foldl_add_case_cases cs (m ++ [(c.name, c)]) (p + c.points.getD 0) hnd' hdisj']
    simp

theorem lookupCase_map_of_nodup :
    ∀ (cs : List TestCase), (cs.map TestCase.name).Nodup →
      ∀ c ∈ cs, lookupCase (cs.map (fun c => (c.name, c))) c.name = some c
  | [], _, c, hc => by simp at hc
  | b :: cs, hnd, c, hc => by
    rcases List.mem_cons.mp hc with hc | hc
    · subst hc
      simp [lookupCase, List.find?]
    · have hne : ¬ (b.name == c.name) = true := by
        intro hcontra
        exact (List.nodup_cons.mp hnd).1
          ((beq_iff_eq.mp hcontra) ▸ List.mem_map_of_mem TestCase.name hc)
      simp only [lookupCase, List.map_cons, List.find?]
      rw [Bool.of_not_eq_true hne]
      exact lookupCase_map_of_nodup cs (List.nodup_cons.mp hnd).2 c hc

/-- Claim C1 (evaluation of the defect): the implicit end-of-output Expect is
appended for the empty script and for a script ending in a Send, but NOT for a
script ending in an Expect of an ordinary pattern — `run_script` runs such a
script unchanged (its expect trace shows only the literal pattern), although
the claim requires an end-of-output Expect to be appended there too. -/
theorem C1_implicit_eof_eval :
    ensureEof [Action.mk' ActionType.expect "x" (-1)]
        = [Action.mk' ActionType.expect "x" (-1)]
    ∧ (run_script "prog" [Action.mk' ActionType.expect "x" (-1)] (fun s => s)
        none 10 procPass).expects = [(AData.str "x", 10)]
    ∧ ensureEof [] = [Action.mk' ActionType.expect "_EOF_" (-1)]
    ∧ ensureEof [Action.mk' ActionType.send "a" (-1)]
        = [Action.mk' ActionType.send "a" (-1),
           Action.mk' ActionType.expect "_EOF_" (-1)] := by
  refine ⟨by decide, by decide, by decide, by decide⟩

/-- Claim C2 (counterexample): an Expect action without its own timeout,
inside a case whose timeout is 5, is matched with the global default timeout
10 — the case timeout is not consulted. -/
theorem C2_counterexample :
    (TestCase.run tC2 (fun s => s) false none 10 "/" procPass).sres.expects
        = [(AData.str "x", 10)]
    ∧ tC2.timeout = 5 ∧ (10 : Int) ≠ 5 := by
  refine ⟨by decide, by decide, by decide⟩

/-- Claim C2 (amended): the timeout used for each executed Expect is the
action's own timeout when set and otherwise the resolved global default
(`effectiveTimeout`); the enclosing case's `timeout` field is never consulted
at run time — changing it changes neither the report nor the script result. -/
theorem C2_timeout_fallback (t : TestCase) (x : Int) (dApply : String → String)
    (jailed : Bool) (gT : Option Int) (gd : Int) (cwd : String) (proc : Proc) :
    ((TestCase.run ⟨t.name, t.command, t.script, x, t.exits, t.points, t.blocker,
        t.visible⟩ dApply jailed gT gd cwd proc).report
      = (TestCase.run t dApply jailed gT gd cwd proc).report
     ∧ (TestCase.run ⟨t.name, t.command, t.script, x, t.exits, t.points, t.blocker,
        t.visible⟩ dApply jailed gT gd cwd proc).sres
      = (TestCase.run t dApply jailed gT gd cwd proc).sres)
    ∧ ∀ p ∈ (TestCase.run t dApply jailed gT gd cwd proc).sres.expects,
        ∃ a, a ∈ ensureEof t.script ∧ a.type_ = ActionType.expect ∧
          p.2 = effectiveTimeout a.timeout (gT.getD gd) := by
  refine ⟨⟨rfl, rfl⟩, ?_⟩
  intro p hp
  simp only [TestCase.run, run_script] at hp
  obtain ⟨a, ha, haty, hpe⟩ :=
    runLoop_expects_mem dApply (gT.getD gd) proc (ensureEof t.script) 0 p hp
  exact ⟨a, ha, haty, by rw [hpe]⟩

/-- Claim C2 (witness): concrete instance of the amended statement — changing
the case timeout from 5 to 7 leaves the report identical, and the single
executed expect of the case with timeout 5 used the effective timeout of its
action (the resolved global default 10). -/
theorem C2_timeout_fallback_witness :
    ((TestCase.run tC2x (fun s => s) false none 10 "/" procPass).report
        = (TestCase.run tC2 (fun s => s) false none 10 "/" procPass).report)
    ∧ ∃ a, a ∈ ensureEof tC2.script ∧ a.type_ = ActionType.expect ∧
        ((AData.str "x", (10 : Int)) : AData × Int).2
          = effectiveTimeout a.timeout ((none : Option Int).getD 10) :=
  ⟨(C2_timeout_fallback tC2 7 (fun s => s) false none 10 "/" procPass).1.1,
   (C2_timeout_fallback tC2 7 (fun s => s) false none 10 "/" procPass).2
     (AData.str "x", 10) (by decide)⟩

/-- Claim C5: comparing the runner's exit status with the case's expected
exit status — a mismatch (including a `None` status) appends exactly
"Incorrect exit status." after the script errors, a match appends nothing,
and the string can never already occur among the script errors. -/
theorem C5_exit_status (t : TestCase) (dApply : String → String) (jailed : Bool)
    (gT : Option Int) (gd : Int) (cwd : String) (proc : Proc) :
    ((TestCase.run t dApply jailed gT gd cwd proc).sres.exitstatus ≠ some t.exits →
      (TestCase.run t dApply jailed gT gd cwd proc).report.errors
        = (TestCase.run t dApply jailed gT gd cwd proc).sres.errors
          ++ ["Incorrect exit status."])
    ∧ ((TestCase.run t dApply jailed gT gd cwd proc).sres.exitstatus = some t.exits →
      (TestCase.run t dApply jailed gT gd cwd proc).report.errors
          = (TestCase.run t dApply jailed gT gd cwd proc).sres.errors
      ∧ "Incorrect exit status."
          ∉ (TestCase.run t dApply jailed gT gd cwd proc).report.errors) := by
  constructor
  · intro h
    simp only [TestCase.run] at h ⊢
    rw [if_pos h]
  · intro h
    simp only [TestCase.run] at h ⊢
    rw [if_neg (not_not_intro h)]
    refine ⟨by simp, ?_⟩
    intro hmem
    simp only [List.append_nil] at hmem
    simp only [run_script] at hmem
    rcases runLoop_errors_mem dApply (gT.getD gd) proc (ensureEof t.script) 0 _ hmem
      with h1 | h1
    · exact absurd h1 (by decide)
    · exact absurd h1 (by decide)

/-- Claim C5 (witness): a killed child (`None` exit status) gets
"Incorrect exit status." appended after the script error, and a child exiting
0 as expected does not get it. -/
theorem C5_exit_status_witness :
    (TestCase.run tC5 (fun s => s) false none 10 "/" procTimeout).report.errors
        = (TestCase.run tC5 (fun s => s) false none 10 "/" procTimeout).sres.errors
          ++ ["Incorrect exit status."]
    ∧ "Incorrect exit status."
        ∉ (TestCase.run tC5 (fun s => s) false none 10 "/" procPass).report.errors :=
  ⟨(C5_exit_status tC5 (fun s => s) false none 10 "/" procTimeout).1 (by decide),
   ((C5_exit_status tC5 (fun s => s) false none 10 "/" procPass).2 (by decide)).2⟩

/-- Claim C7 (evaluation of the defect): re-parsing the rendered form of a
one-case suite fails with a TypeError — every rendered case carries a
`return:` field, which the parser forwards under the keyword `returns` that
`TestCase.__init__` does not accept, so no rendered suite can be re-parsed;
the rendering moreover omits the case's blocker and visible flags entirely. -/
theorem C7_roundtrip_eval :
    parse_spec (Suite.renderDoc sC7)
        = Except.error
            (PyErr.typeError "c7: init got an unexpected keyword argument returns")
    ∧ (Suite.renderDoc sC7).map (fun c => (c.blocker, c.visible)) = [(none, none)] := by
  refine ⟨rfl, by decide⟩

/-- Claim C8 (evaluation of the defect): with sandboxing enabled the command
delegated to `run_script` is the bare case command, not the jail-prefixed
command built two lines earlier (base.py line 242-243 builds it, line 246
passes `self.command`). -/
theorem C8_sandbox_eval :
    (TestCase.run tC8 (fun s => s) true none 10 "/srv" procPass).sres.command = "prog"
    ∧ (TestCase.run tC8 (fun s => s) true none 10 "/srv" procPass).sres.command
        ≠ "fakechroot chroot /srv prog" := by
  refine ⟨by decide, by decide⟩

/-- Claim C9 (evaluation of the defect): parsing a case document with
`return: 2` raises a TypeError (parse.py line 86 stores the value under the
keyword `returns`, but the `TestCase.__init__` parameter is named `exits`),
while parsing the same case without a `return` field succeeds with expected
exit status 0. -/
theorem C9_return_field_eval :
    parseCase docC9
        = Except.error
            (PyErr.typeError "c9: init got an unexpected keyword argument returns")
    ∧ parseCase docC9b = Except.ok
        ⟨"c9b", "prog", [Action.mk' ActionType.expect "_EOF_" (-1)], -1, 0, none,
          false, true⟩ := by
  refine ⟨rfl, rfl⟩

/-- Claim C10 (counterexample): running a case whose script is empty appends
the implicit end-of-output Expect to the case's own script list in place, so
the script does not equal its pre-run value. -/
theorem C10_counterexample :
    (TestCase.run tC10 (fun s => s) false none 10 "/" procPass).post.script
        = [Action.mk' ActionType.expect "_EOF_" (-1)]
    ∧ tC10.script = [] := by
  refine ⟨by decide, by decide⟩

/-- Claim C10 (amended): when the case's script already ends in an Expect
action and variable substitution is the identity, running the case leaves its
script equal to its pre-run value (in general the run may append the implicit
end-of-output Expect and replaces executed actions' data by their substituted
form). -/
theorem C10_script_preserved (t : TestCase) (dApply : String → String)
    (jailed : Bool) (gT : Option Int) (gd : Int) (cwd : String) (proc : Proc)
    (a : Action) (hlast : t.script.getLast? = some a)
    (hty : a.type_ = ActionType.expect) (hid : ∀ s, dApply s = s) :
    (TestCase.run t dApply jailed gT gd cwd proc).post.script = t.script := by
  have hee : ensureEof t.script = t.script := by
    simp [ensureEof, hlast, hty]
  simp only [TestCase.run, run_script]
  rw [hee]
  exact runLoop_final_of_id dApply (gT.getD gd) proc hid t.script 0

/-- Claim C10 (witness): a case whose script ends in the end-of-output Expect
keeps its script across a run with identity substitution. -/
theorem C10_script_preserved_witness :
    (TestCase.run tC10b (fun s => s) false none 10 "/" procPass).post.script
      = tC10b.script :=
  C10_script_preserved tC10b (fun s => s) false none 10 "/" procPass
    (Action.mk' ActionType.expect "_EOF_" (-1)) (by decide) (by decide)
    (fun _ => rfl)

/-- Claim C3: the report entries of a suite run are exactly the selected
names up to and including the first case that is a blocker and failed: a
failed blocker stops the iteration (later cases get no entry), while a failed
non-blocker does not truncate the list, so the following cases still run. -/
theorem C3_blocker_short_circuit (s : Suite) (behave : String → Proc)
    (dApply : String → String) (sj : Bool) (tests : Option (List String))
    (gT : Option Int) (gd : Int) (cwd : String)
    (h : ∀ n ∈ tests.getD (Suite.defaultNames s),
      (lookupCase s.cases n).isSome = true) :
    ∃ rep, Suite.run s behave dApply sj tests gT gd cwd = Except.ok rep ∧
      rep.entries.map (fun e => e.1)
        = takeThrough (blockerStops s behave dApply sj gT gd cwd)
            (tests.getD (Suite.defaultNames s)) := by
  obtain ⟨⟨es, pts⟩, hrun, hmap⟩ :=
    suiteRunLoop_entries s behave dApply sj gT gd cwd
      (tests.getD (Suite.defaultNames s)) h
  refine ⟨⟨es, pts⟩, ?_, hmap⟩
  simp only [Suite.run]
  rw [hrun]

/-- Claim C3 (witness): in the suite [nb (fails, no blocker), bl (fails,
blocker), after (would pass)], the run reports exactly nb and bl: the failed
non-blocker nb did not stop the run, the failed blocker bl did, and `after`
has no entry. -/
theorem C3_blocker_short_circuit_witness :
    ∃ rep, Suite.run sC3 behaveC3 (fun s => s) false none none 10 "/"
        = Except.ok rep ∧
      rep.entries.map (fun e => e.1) = ["nb", "bl"] := by
  obtain ⟨rep, hrun, hmap⟩ :=
    C3_blocker_short_circuit sC3 behaveC3 (fun s => s) false none none 10 "/"
      (by decide)
  exact ⟨rep, hrun, hmap.trans (by decide)⟩

/-- Claim C4: when every expect before a failing one matches, a TIMEOUT on
that expect makes `run_script` return exactly the error
"Timeout exceeded.", and an end-of-stream on a non-EOF pattern exactly
"Expected output not received."; in both cases the session is force-closed,
exactly the actions up to the failing one were executed, and the failure is
the function's return value, not an exception. -/
theorem C4_failure_data (command : String) (script : List Action)
    (dApply : String → String) (gT : Option Int) (gd : Int) (proc : Proc)
    (pre post : List Action) (a : Action)
    (hsplit : ensureEof script = pre ++ a :: post)
    (hpre : allMatchedFrom dApply (gT.getD gd) proc pre 0 = true)
    (hty : a.type_ = ActionType.expect) :
    (proc.outcome (expectCount pre) (substData dApply a.data)
        (effectiveTimeout a.timeout (gT.getD gd)) = ExpectOutcome.timeoutRaised →
      (run_script command script dApply gT gd proc).errors = ["Timeout exceeded."]
      ∧ (run_script command script dApply gT gd proc).executed = pre.length + 1
      ∧ (run_script command script dApply gT gd proc).closedForce = true)
    ∧ (substData dApply a.data ≠ AData.eof →
       proc.outcome (expectCount pre) (substData dApply a.data)
        (effectiveTimeout a.timeout (gT.getD gd)) = ExpectOutcome.eofRaised →
      (run_script command script dApply gT gd proc).errors
          = ["Expected output not received."]
      ∧ (run_script command script dApply gT gd proc).executed = pre.length + 1
      ∧ (run_script command script dApply gT gd proc).closedForce = true) := by
  obtain ⟨ty, dat, tmo⟩ := a
  have hty2 : ty = ActionType.expect := hty
  subst hty2
  have hcomp := runLoop_append_of_allMatched dApply (gT.getD gd) proc pre
    (⟨ActionType.expect, dat, tmo⟩ :: post) 0 hpre
  have hlen := (runLoop_of_allMatched dApply (gT.getD gd) proc pre 0 hpre).2.2.2
  constructor
  · intro hout
    simp only [run_script, hsplit, hcomp]
    simp only [Nat.zero_add, runLoop]
    rw [hout]
    simp [hlen]
  · intro _ hout
    simp only [run_script, hsplit, hcomp]
    simp only [Nat.zero_add, runLoop]
    rw [hout]
    simp [hlen]

/-- Claim C4 (witness): on the script [expect a, expect b (timeout 5),
send z] — whose implicit EOF expect is appended after the send — a process
matching the first expect and timing out (resp. hitting end of stream) on
the second yields exactly the one error string, with exactly two actions
executed and the session force-closed. -/
theorem C4_failure_data_witness :
    ((run_script "cmd" scriptC4 (fun s => s) none 10 procC4t).errors
        = ["Timeout exceeded."]
      ∧ (run_script "cmd" scriptC4 (fun s => s) none 10 procC4t).executed = 2
      ∧ (run_script "cmd" scriptC4 (fun s => s) none 10 procC4t).closedForce = true)
    ∧ ((run_script "cmd" scriptC4 (fun s => s) none 10 procC4e).errors
        = ["Expected output not received."]
      ∧ (run_script "cmd" scriptC4 (fun s => s) none 10 procC4e).executed = 2
      ∧ (run_script "cmd" scriptC4 (fun s => s) none 10 procC4e).closedForce
          = true) :=
  ⟨(C4_failure_data "cmd" scriptC4 (fun s => s) none 10 procC4t
      [Action.mk' ActionType.expect "a" (-1)]
      [Action.mk' ActionType.send "z" (-1), Action.mk' ActionType.expect "_EOF_" (-1)]
      (Action.mk' ActionType.expect "b" 5) (by decide) (by decide) (by decide)).1
      (by decide),
   (C4_failure_data "cmd" scriptC4 (fun s => s) none 10 procC4e
      [Action.mk' ActionType.expect "a" (-1)]
      [Action.mk' ActionType.send "z" (-1), Action.mk' ActionType.expect "_EOF_" (-1)]
      (Action.mk' ActionType.expect "b" 5) (by decide) (by decide) (by decide)).2
      (by decide) (by decide)⟩

/-- Claim C6 (counterexample): the suite built by adding a 3-point case "a"
and a 2-point metadata-named case "_m" has total points 5, but a full default
run in which every executed case passes earns only 3, because
underscore-named cases are excluded from the run. -/
theorem C6_counterexample :
    Suite.run sC6 (fun _ => procPass) (fun s => s) false none none 10 "/"
        = Except.ok ⟨[("a", ⟨[], some 3⟩)], 3 + 0⟩
    ∧ sC6.points = 0 + 3 + 2
    ∧ ((3 : Rat) + 0 ≠ 0 + 3 + 2) := by
  refine ⟨rfl, rfl, by norm_num⟩

/-- Claim C6 (amended): the suite's total points equal the sum of the
declared points over all `add_case` calls (absent points counting 0); and a
full default run earns exactly the total points provided the case names are
distinct, none is metadata-named (leading underscore), and every case
passes. -/
theorem C6_points_additivity (cs : List TestCase) (behave : String → Proc)
    (dApply : String → String) (sj : Bool) (gT : Option Int) (gd : Int)
    (cwd : String) :
    (List.foldl Suite.add_case Suite.init cs).points
        = (cs.map (fun c => c.points.getD 0)).sum
    ∧ ((cs.map TestCase.name).Nodup →
       (∀ c ∈ cs, strStarts c.name "_" = false) →
       (∀ c ∈ cs, (TestCase.run c dApply (sj && strStarts c.name "case_")
          gT gd cwd (behave c.name)).report.errors = []) →
       ∃ rep, Suite.run (List.foldl Suite.add_case Suite.init cs) behave dApply sj
            none gT gd cwd = Except.ok rep
         ∧ rep.points = (List.foldl Suite.add_case Suite.init cs).points) := by
  have hpts := foldl_add_case_points cs Suite.init
  constructor
  · rw [hpts]
    simp [Suite.init]
  · intro hnd hmeta hpass
    have hcases : (List.foldl Suite.add_case Suite.init cs).cases
        = cs.map (fun c => (c.name, c)) := by
      have := foldl_add_case_cases cs [] 0 hnd (by intro c hc q hq; simp at hq)
      simpa [Suite.init] using this
    have hnames : Suite.defaultNames (List.foldl Suite.add_case Suite.init cs)
        = cs.map TestCase.name := by
      simp only [Suite.defaultNames, hcases, List.map_map]
      rw [List.filter_eq_self.mpr ?hall]
      · rfl
      case hall =>
        intro n hn
        simp only [List.mem_map, Function.comp] at hn
        obtain ⟨c, hc, hcn⟩ := hn
        rw [← hcn]
        simp [hmeta c hc]
    have hlook : ∀ n ∈ cs.map TestCase.name, ∃ t,
        lookupCase (List.foldl Suite.add_case Suite.init cs).cases n = some t ∧
        (TestCase.run t dApply (sj && strStarts n "case_") gT gd cwd
          (behave n)).report.errors = [] := by
      intro n hn
      obtain ⟨c, hc, hcn⟩ := List.mem_map.mp hn
      subst hcn
      refine ⟨c, ?_, hpass c hc⟩
      rw [hcases]
      exact lookupCase_map_of_nodup cs hnd c hc
    obtain ⟨es, hes⟩ := suiteRunLoop_all_pass
      (List.foldl Suite.add_case Suite.init cs) behave dApply sj gT gd cwd
      (cs.map TestCase.name) hlook
    have hsum : (List.map (fun n =>
        ((lookupCase (List.foldl Suite.add_case Suite.init cs).cases n).bind
          TestCase.points).getD 0) (cs.map TestCase.name)).sum
        = (cs.map (fun c => c.points.getD 0)).sum := by
      rw [List.map_map]
      refine congrArg List.sum (List.map_congr_left ?_)
      intro c hc
      have hl := lookupCase_map_of_nodup cs hnd c hc
      simp only [Function.comp]
      rw [hcases, hl]
      rfl
    refine ⟨⟨es, (List.map (fun n =>
        ((lookupCase (List.foldl Suite.add_case Suite.init cs).cases n).bind
          TestCase.points).getD 0) (cs.map TestCase.name)).sum⟩, ?_, ?_⟩
    · simp only [Suite.run, Option.getD_none]
      rw [hnames, hes]
    · rw [hsum, hpts]
      simp [Suite.init]

/-- Claim C6 (witness): concrete instance of the amended statement for the
two-case list [w1 (3 points), w2 (no points)] with an all-pass process. -/
theorem C6_points_additivity_witness :
    (List.foldl Suite.add_case Suite.init csC6).points
        = (csC6.map (fun c => c.points.getD 0)).sum
    ∧ ∃ rep, Suite.run (List.foldl Suite.add_case Suite.init csC6)
          (fun _ => procPass) (fun s => s) false none none 10 "/"
        = Except.ok rep
      ∧ rep.points = (List.foldl Suite.add_case Suite.init csC6).points :=
  ⟨(C6_points_additivity csC6 (fun _ => procPass) (fun s => s) false none 10 "/").1,
   (C6_points_additivity csC6 (fun _ => procPass) (fun s => s) false none 10 "/").2
     (by decide) (by decide) (by decide)⟩

end Calico
